import Mathlib

/-!
Shallow embedding of `pyarrowfs_adlgen2/core.py`: the buffered remote file
(`DatalakeGen2File`), the single-namespace handler (`FilesystemHandler`) and
the account-level router (`AccountHandler`), together with an explicit model
of the Azure Data Lake gen2 backend state they call into.

Paths are modelled as `List Char` (Python `str`), file bytes as `List Nat`.
The Azure backend (filesystems, flat path listings with directory markers,
append-then-commit file writes, ranged downloads) is modelled explicitly as
the `Account` / `RemoteFile` state types; each backend primitive has the
behaviour the code relies on (404 on missing targets, committed-length
visibility for reads).
-/

set_option maxRecDepth 4000

namespace Adlgen2

abbrev Str := List Char

/-! ## Python string helpers used by core.py -/

/-- Python `path.lstrip('/')`: remove every leading slash character. -/
def lstripSlash (s : Str) : Str := s.dropWhile (· = '/')

/-- Python `path.rstrip('/')`: remove every trailing slash character. -/
def rstripSlash (s : Str) : Str := (s.reverse.dropWhile (· = '/')).reverse

/-- `normalize_path` of both handlers: `path.lstrip('/').rstrip('/')`. -/
def normalize_path (s : Str) : Str := rstripSlash (lstripSlash s)

/-- Python `path.split('/')`. -/
def splitSlash (s : Str) : List Str := s.splitOn '/'

/-- Python `'/'.join(parts)`. -/
def joinSlash (xs : List Str) : Str := List.intercalate ['/'] xs

/-- Python `os.path.dirname` (posixpath): the part before the last slash,
with trailing slashes stripped unless the head is all slashes. -/
def dirname (s : Str) : Str :=
  let head := (s.reverse.dropWhile (· ≠ '/')).reverse
  if head ≠ [] ∧ head.any (· ≠ '/') then rstripSlash head else head

/-! ## Error taxonomy

One constructor per raise site of core.py, labelled with the Python
exception class it models and the data interpolated into its message. -/

inductive FileType
  | file
  | directory
  deriving DecidableEq, Repr

inductive Err
  /-- `FileNotFoundError(path)` -/
  | fileNotFound (path : Str)
  /-- `FileNotFoundError()` with no argument (`AccountHandler.delete_file`). -/
  | fileNotFoundRoot
  /-- `IsADirectoryError(path)` -/
  | isADirectory (path : Str)
  /-- `NotADirectoryError(path)` -/
  | notADirectory (path : Str)
  /-- `ValueError` from `_split_path`: remainder may not end with a slash. -/
  | illegalPathEnd (path : Str)
  /-- `ValueError` from move: destination is a non-empty directory. -/
  | conflictNonEmptyDir (dest : Str)
  /-- `ValueError` from move: source and destination types differ. -/
  | conflictTypeMismatch (src : Str) (srcType : FileType) (dest : Str) (destType : FileType)
  /-- `ValueError` from move: cannot move a bare file system. -/
  | moveFs (fs : Str)
  /-- `ValueError` from move: new name is a bare file system. -/
  | moveToFs (fs : Str)
  /-- `ValueError` from `AccountHandler.delete_dir_contents` on the root. -/
  | rootDeleteRefusedAccount
  /-- `ValueError` from `FilesystemHandler.delete_dir_contents` on the root. -/
  | rootDeleteRefusedFs
  /-- `ValueError` from `_require_path`: files cannot live at account root. -/
  | fileOnRoot
  /-- `azure...StorageErrorException` with a status code, propagated raw. -/
  | storage (status : Nat)
  /-- `azure.core.exceptions.ResourceExistsError`. -/
  | resourceExists
  /-- `ValueError('Flush on closed file')` -/
  | valueFlushClosed
  /-- `ValueError('File not in write mode')` -/
  | valueNotWriteMode
  /-- `ValueError('Attempted I-O on closed file')` -/
  | valueIOClosedWrite
  /-- `ValueError('File not in read mode')` -/
  | valueNotReadMode
  /-- `ValueError('I-O on closed file')` -/
  | valueIOClosedRead
  /-- `ValueError('Seek only available in read mode')` -/
  | valueSeekMode
  /-- `ValueError` for a whence outside 0..2. -/
  | valueInvalidWhence (w : Int)
  /-- `ValueError('Seek before start of file')` -/
  | valueSeekNeg
  /-- injected failure of a backend append or commit call -/
  | remoteRaised
  deriving DecidableEq, Repr

/-- Membership of Python class `FileNotFoundError`, as tested by
`except FileNotFoundError` clauses. -/
def Err.isFileNotFoundClass : Err → Bool
  | .fileNotFound _ => true
  | .fileNotFoundRoot => true
  | _ => false

/-! ## DatalakeGen2File: the buffered remote byte stream

The remote side of one file: `staged` holds the bytes placed by
`append_data`; only the prefix of length `committed` (set by `flush_data`)
is visible to reads, and `get_file_properties().size` reports `committed`. -/

structure RemoteFile where
  staged : List Nat
  committed : Nat
  deriving DecidableEq, Repr

inductive Mode
  | rb
  | wb
  | ab
  deriving DecidableEq, Repr

/-- State of a `DatalakeGen2File` (the constructor rejects any mode other
than the three of `Mode`, so the mode field is the inductive). -/
structure DLFile where
  mode : Mode
  block_size : Nat
  loc : Int
  buffer : List Nat
  offset : Option Nat
  closed : Bool
  deriving DecidableEq, Repr

def DEFAULT_BLOCK_SIZE : Nat := 5 * 2 ^ 20

/-- Whether the injected backend failure makes `append_data` or
`flush_data` raise during a flush. -/
structure FlushEnv where
  appendRaises : Bool
  flushRaises : Bool
  deriving DecidableEq, Repr

def noFailures : FlushEnv := ⟨false, false⟩

/-- The value `self.offset` holds after the lazy resolution at the top of
`flush`: kept if already resolved, else the remote size for append mode
and 0 for write mode. -/
def resolveOffset (s : DLFile) (r : RemoteFile) : Nat :=
  match s.offset with
  | some k => k
  | none => if s.mode = .ab then r.committed else 0

/-- `DatalakeGen2File.flush`. Mutations happen in source order: resolve
`offset`, call `append_data(buffer, offset, len)`, advance `offset` by the
buffer length, call `flush_data(offset)`, clear the buffer. A raise from
either backend call leaves the state exactly as mutated so far. -/
def flushOp (env : FlushEnv) (s : DLFile) (r : RemoteFile) :
    DLFile × RemoteFile × Option Err :=
  if s.closed then (s, r, some .valueFlushClosed)
  else if s.mode = .rb then (s, r, none)
  else
    let off := resolveOffset s r
    let s1 := { s with offset := some off }
    if env.appendRaises then (s1, r, some .remoteRaised)
    else
      let r1 := { r with staged := r.staged.take off ++ s1.buffer }
      let s2 := { s1 with offset := some (off + s1.buffer.length) }
      if env.flushRaises then (s2, r1, some .remoteRaised)
      else
        let r2 := { r1 with committed := off + s2.buffer.length }
        ({ s2 with buffer := [] }, r2, none)

/-- `DatalakeGen2File.write`: append to the pending buffer, advance the
cursor, flush when the buffered size reaches `block_size`. -/
def writeOp (env : FlushEnv) (s : DLFile) (r : RemoteFile) (data : List Nat) :
    DLFile × RemoteFile × Option Err :=
  if s.mode = .rb then (s, r, some .valueNotWriteMode)
  else if s.closed then (s, r, some .valueIOClosedWrite)
  else
    let s1 := { s with buffer := s.buffer ++ data, loc := s.loc + data.length }
    if s1.block_size ≤ s1.buffer.length then flushOp env s1 r
    else (s1, r, none)

/-- `DatalakeGen2File.read`: negative length means read to end of file
(one size round trip); zero length returns empty with no download;
otherwise a ranged download of the committed bytes starting at the cursor.
The cursor is not touched. -/
def readOp (s : DLFile) (r : RemoteFile) (length : Int) :
    DLFile × Option Err × List Nat :=
  if s.mode ≠ .rb then (s, some .valueNotReadMode, [])
  else if s.closed then (s, some .valueIOClosedRead, [])
  else
    let len : Int := if length < 0 then (r.committed : Int) - s.loc else length
    if len = 0 then (s, none, [])
    else (s, none, ((r.staged.take r.committed).drop s.loc.toNat).take len.toNat)

/-- `DatalakeGen2File.tell`. -/
def tellOp (s : DLFile) : Int := s.loc

/-- Remote metadata calls a stream operation performs. -/
inductive FileCall
  | getProperties
  deriving DecidableEq, Repr

/-- The candidate new cursor for each whence value: absolute, relative to
the cursor, relative to the end of file. -/
def seekTarget (s : DLFile) (r : RemoteFile) (loc w : Int) : Int :=
  if w = 0 then loc
  else if w = 1 then s.loc + loc
  else (r.committed : Int) + loc

/-- `DatalakeGen2File.seek`. The Python source builds the full candidate
list `[loc, self.loc + loc, self.get_file_properties().size + loc]` before
indexing it with `whence`, so `get_file_properties` is called for every
in-range whence value; the returned trace records that call. -/
def seekOp (s : DLFile) (r : RemoteFile) (loc w : Int) :
    DLFile × List FileCall × Except Err Int :=
  if s.mode ≠ .rb then (s, [], .error .valueSeekMode)
  else if ¬ (0 ≤ w ∧ w ≤ 2) then (s, [], .error (.valueInvalidWhence w))
  else
    let trace := [FileCall.getProperties]
    let new_loc := seekTarget s r loc w
    if new_loc < 0 then (s, trace, .error .valueSeekNeg)
    else ({ s with loc := new_loc }, trace, .ok new_loc)

/-- `io.IOBase.close`, inherited by `DatalakeGen2File`: no-op when already
closed, otherwise flush and mark closed. -/
def closeOp (env : FlushEnv) (s : DLFile) (r : RemoteFile) :
    DLFile × RemoteFile × Option Err :=
  if s.closed then (s, r, none)
  else
    let (s1, r1, e) := flushOp env s r
    ({ s1 with closed := true }, r1, e)

/-- The fresh stream and remote state made by `open_output_stream`:
write mode, default block size, and an eager zero-length `create_file`. -/
def openOutput : DLFile × RemoteFile :=
  ({ mode := .wb, block_size := DEFAULT_BLOCK_SIZE, loc := 0, buffer := [],
     offset := none, closed := false },
   { staged := [], committed := 0 })

/-- The fresh stream made by `open_input_stream` over a remote file. -/
def openInput : DLFile :=
  { mode := .rb, block_size := DEFAULT_BLOCK_SIZE, loc := 0, buffer := [],
    offset := none, closed := false }

/-- Full write-then-read pipeline on one path: open an output stream,
write `data`, close, then open an input stream and read everything from
cursor 0. Returns the two write-side error slots and the bytes read. -/
def writeReadRoundTrip (data : List Nat) : Option Err × Option Err × List Nat :=
  let (s0, r0) := openOutput
  let (s1, r1, e1) := writeOp noFailures s0 r0 data
  let (_s2, r2, e2) := closeOp noFailures s1 r1
  let (_s3, _e3, bytes) := readOp openInput r2 (-1)
  (e1, e2, bytes)

/-! ## The Azure backend state

An account is a list of filesystems (namespaces); each filesystem holds a
flat list of path entries with a directory marker, as returned by the
get-paths listing primitive. -/

structure PathEntry where
  name : Str
  is_directory : Bool
  content : List Nat := []
  deriving DecidableEq, Repr

structure FileSystem where
  name : Str
  paths : List PathEntry
  deriving DecidableEq, Repr

structure Account where
  systems : List FileSystem
  deriving DecidableEq, Repr

def Account.findFs (a : Account) (nm : Str) : Option FileSystem :=
  a.systems.find? (fun f => f.name = nm)

def Account.updateFs (a : Account) (nm : Str) (f : FileSystem → FileSystem) : Account :=
  { systems := a.systems.map (fun s => if s.name = nm then f s else s) }

/-- The entries a get-paths listing of `path` returns: for the filesystem
root every entry (recursive) or the entries whose dirname is empty;
otherwise the subtree below `path` (recursive) or its direct children. -/
def childrenOf (entries : List PathEntry) (path : Str) (recursive : Bool) : List PathEntry :=
  if recursive then
    if path = [] then entries
    else entries.filter (fun e => (path ++ ['/']).isPrefixOf e.name)
  else entries.filter (fun e => dirname e.name = path)

/-- `FileSystemClient.get_paths`: 404 when the filesystem or the listed
directory does not exist. -/
def Account.get_paths (a : Account) (fsName path : Str) (recursive : Bool) :
    Except Err (List PathEntry) :=
  match a.findFs fsName with
  | none => .error (.storage 404)
  | some fs =>
    if path = [] then .ok (childrenOf fs.paths [] recursive)
    else if fs.paths.any (fun e => e.name = path ∧ e.is_directory) then
      .ok (childrenOf fs.paths path recursive)
    else .error (.storage 404)

/-- The chain of ancestor paths a directory creation materialises:
for a/b/c the list [a, a/b, a/b/c]. -/
def ancestorsOf (p : Str) : List Str :=
  ((splitSlash p).inits.filter (fun l => l ≠ [])).map joinSlash

/-- `FileSystemClient.create_directory`: creates the directory and any
missing intermediate segments; idempotent on existing entries. -/
def Account.create_directory (a : Account) (fsName path : Str) : Except Err Account :=
  match a.findFs fsName with
  | none => .error (.storage 404)
  | some _ =>
    .ok (a.updateFs fsName (fun fs =>
      { fs with paths := fs.paths ++ (ancestorsOf path).filterMap (fun anc =>
          if fs.paths.any (fun e => e.name = anc) then none
          else some { name := anc, is_directory := true }) }))

/-- `FileSystemClient.delete_directory`: removes the directory entry and
everything below it; 404 when absent. -/
def Account.delete_directory (a : Account) (fsName path : Str) : Except Err Account :=
  match a.findFs fsName with
  | none => .error (.storage 404)
  | some fs =>
    if fs.paths.any (fun e => e.name = path ∧ e.is_directory) then
      .ok (a.updateFs fsName (fun f =>
        { f with paths := f.paths.filter (fun e =>
            ¬ (e.name = path ∨ (path ++ ['/']).isPrefixOf e.name)) }))
    else .error (.storage 404)

/-- `DataLakeFileClient.delete_file`: removes the file entry; 404 when the
path is absent or a directory. -/
def Account.delete_file_be (a : Account) (fsName path : Str) : Except Err Account :=
  match a.findFs fsName with
  | none => .error (.storage 404)
  | some fs =>
    if fs.paths.any (fun e => e.name = path ∧ ¬ e.is_directory) then
      .ok (a.updateFs fsName (fun f =>
        { f with paths := f.paths.filter (fun e => e.name ≠ path) }))
    else .error (.storage 404)

/-- How the SDK rename call parses its new-name argument: strip leading
slashes, first segment is the target filesystem, the rest the new path. -/
def parseFullPath (p : Str) : Str × Str :=
  let q := lstripSlash p
  match splitSlash q with
  | [] => ([], [])
  | fsn :: rest => (fsn, joinSlash rest)

/-- `DataLakeFileClient.rename_file(new_name)`: moves the file entry to the
filesystem and path named by `destFull`, replacing any file entry already
at the destination; 404 when source or target filesystem is missing.
(The real service cannot cross containers; no claim exercises a
cross-container success, so the model allows it.) -/
def Account.rename_file (a : Account) (srcFs srcPath destFull : Str) : Except Err Account :=
  let pd := parseFullPath destFull
  match a.findFs srcFs with
  | none => .error (.storage 404)
  | some fs =>
    match fs.paths.find? (fun e => e.name = srcPath ∧ ¬ e.is_directory) with
    | none => .error (.storage 404)
    | some e =>
      match a.findFs pd.1 with
      | none => .error (.storage 404)
      | some _ =>
        let a1 := a.updateFs srcFs (fun f =>
          { f with paths := f.paths.filter (fun x => x.name ≠ srcPath) })
        .ok (a1.updateFs pd.1 (fun f =>
          { f with paths := (f.paths.filter (fun x => x.name ≠ pd.2)) ++
              [{ name := pd.2, is_directory := false, content := e.content }] }))

/-- `DataLakeDirectoryClient.rename_directory(new_name)`: moves the
directory entry and its subtree, rebasing every moved name. -/
def Account.rename_directory (a : Account) (srcFs srcPath destFull : Str) : Except Err Account :=
  let pd := parseFullPath destFull
  match a.findFs srcFs with
  | none => .error (.storage 404)
  | some fs =>
    if ¬ fs.paths.any (fun e => e.name = srcPath ∧ e.is_directory) then
      .error (.storage 404)
    else
      match a.findFs pd.1 with
      | none => .error (.storage 404)
      | some _ =>
        let moved := fs.paths.filterMap (fun e =>
          if e.name = srcPath then some { e with name := pd.2 }
          else if (srcPath ++ ['/']).isPrefixOf e.name then
            some { e with name := pd.2 ++ ['/'] ++ e.name.drop (srcPath.length + 1) }
          else none)
        let a1 := a.updateFs srcFs (fun f =>
          { f with paths := f.paths.filter (fun e =>
              ¬ (e.name = srcPath ∨ (srcPath ++ ['/']).isPrefixOf e.name)) })
        .ok (a1.updateFs pd.1 (fun f => { f with paths := f.paths ++ moved }))

/-- `DataLakeServiceClient.list_file_systems`. -/
def Account.list_file_systems (a : Account) : List FileSystem := a.systems

/-- `DataLakeServiceClient.create_file_system`: ResourceExistsError when
the name is taken. -/
def Account.create_file_system (a : Account) (nm : Str) : Except Err Account :=
  if a.systems.any (fun f => f.name = nm) then .error .resourceExists
  else .ok { systems := a.systems ++ [{ name := nm, paths := [] }] }

/-- `DataLakeServiceClient.delete_file_system`: 404 when absent. -/
def Account.delete_file_system (a : Account) (nm : Str) : Except Err Account :=
  if a.systems.any (fun f => f.name = nm) then
    .ok { systems := a.systems.filter (fun f => f.name ≠ nm) }
  else .error (.storage 404)

/-! ## FilesystemHandler: one namespace -/

structure FileInfo where
  path : Str
  ftype : FileType
  size : Option Nat := none
  deriving DecidableEq, Repr

structure FileSelector where
  base_dir : Str
  allow_not_found : Bool := false
  recursive : Bool := false
  deriving DecidableEq, Repr

/-- A `FilesystemHandler`: its filesystem name and whether generated
paths carry the filesystem-name prefix. Timestamps are omitted from the
model; `size` carries `content_length`. -/
structure FsHandler where
  fsName : Str
  prefixFs : Bool
  deriving DecidableEq, Repr

/-- `FilesystemHandler._prefix`. -/
def FsHandler.pfx (h : FsHandler) (path : Str) : Str :=
  if h.prefixFs ∧ path ≠ [] then h.fsName ++ ['/'] ++ path
  else if h.prefixFs then h.fsName
  else path

/-- `FilesystemHandler._create_file_info`. -/
def FsHandler.create_file_info (h : FsHandler) (e : PathEntry) : FileInfo :=
  { path := h.pfx e.name,
    ftype := if e.is_directory then .directory else .file,
    size := some e.content.length }

/-- `FilesystemHandler._verify_is_dir`: the root always passes; otherwise
list the parent and require a matching entry marked directory. A 404 from
the listing call becomes FileNotFoundError; a missing or non-directory
entry raises NotADirectoryError. -/
def FsHandler.verify_is_dir (h : FsHandler) (a : Account) (path : Str) : Option Err :=
  if path = [] ∨ path = ['/'] then none
  else
    let parent := dirname path
    match a.get_paths h.fsName parent false with
    | .error (.storage 404) => some (.fileNotFound (h.pfx path))
    | .error e => some e
    | .ok listing =>
      match listing.find? (fun e => e.name = path) with
      | some e => if ¬ e.is_directory then some (.notADirectory (h.pfx path)) else none
      | none => some (.notADirectory (h.pfx path))

/-- `FilesystemHandler._get_file_info`: an all-slash path is the synthetic
filesystem root; otherwise find the exact entry in the parent listing. -/
def FsHandler.getFileInfoAux (h : FsHandler) (a : Account) (path : Str) :
    Except Err FileInfo :=
  if lstripSlash path = [] then
    .ok { path := if h.prefixFs then h.fsName else [], ftype := .directory }
  else
    match a.get_paths h.fsName (dirname path) false with
    | .error e => .error e
    | .ok listing =>
      match listing.find? (fun e => e.name = path) with
      | some e => .ok (h.create_file_info e)
      | none => .error (.fileNotFound (h.pfx path))

/-- `FilesystemHandler.get_file_info` on a one-element path list, the form
every internal caller uses: normalize, then resolve. -/
def FsHandler.get_file_info1 (h : FsHandler) (a : Account) (path : Str) :
    Except Err FileInfo :=
  h.getFileInfoAux a (normalize_path path)

/-- `FilesystemHandler.get_file_info_selector`: verify the base is a
directory (a FileNotFoundError becomes an empty result when the selector
allows it), then map the listing to FileInfo values. -/
def FsHandler.get_file_info_selector (h : FsHandler) (a : Account) (sel : FileSelector) :
    Except Err (List FileInfo) :=
  match h.verify_is_dir a (normalize_path sel.base_dir) with
  | some e =>
    if e.isFileNotFoundClass ∧ sel.allow_not_found then .ok []
    else .error e
  | none =>
    match a.get_paths h.fsName (normalize_path sel.base_dir) sel.recursive with
    | .error e => .error e
    | .ok listing => .ok (listing.map h.create_file_info)

/-- `FilesystemHandler.create_dir`: recursive creates directly; otherwise
the parent must verify as a directory first. -/
def FsHandler.create_dir (h : FsHandler) (a : Account) (path : Str) (recursive : Bool) :
    Account × Option Err :=
  let p := normalize_path path
  if recursive then
    match a.create_directory h.fsName p with
    | .error e => (a, some e)
    | .ok a1 => (a1, none)
  else
    match h.verify_is_dir a (dirname p) with
    | some e => (a, some e)
    | none =>
      match a.create_directory h.fsName p with
      | .error e => (a, some e)
      | .ok a1 => (a1, none)

/-- `FilesystemHandler.delete_file`: resolve the FileInfo, refuse a
directory with IsADirectoryError, else delete the file entry. -/
def FsHandler.delete_file (h : FsHandler) (a : Account) (path : Str) :
    Account × Option Err :=
  let p := normalize_path path
  match h.get_file_info1 a p with
  | .error e => (a, some e)
  | .ok fi =>
    if fi.ftype ≠ .file then (a, some (.isADirectory (h.pfx p)))
    else
      match a.delete_file_be h.fsName p with
      | .error e => (a, some e)
      | .ok a1 => (a1, none)

/-- The deletion loop of `FilesystemHandler.delete_dir_contents`:
directories via delete-directory, files via delete-file, stopping at the
first raised error. -/
def FsHandler.deleteEntries (h : FsHandler) (a : Account) :
    List PathEntry → Account × Option Err
  | [] => (a, none)
  | e :: rest =>
    match (if e.is_directory then a.delete_directory h.fsName e.name
           else a.delete_file_be h.fsName e.name) with
    | .error err => (a, some err)
    | .ok a1 => h.deleteEntries a1 rest

/-- `FilesystemHandler.delete_dir_contents`. -/
def FsHandler.delete_dir_contents (h : FsHandler) (a : Account) (path : Str)
    (accept_root_dir : Bool) : Account × Option Err :=
  let p := normalize_path path
  match h.verify_is_dir a p with
  | some e => (a, some e)
  | none =>
    if ¬ accept_root_dir ∧ (p = [] ∨ p = ['/']) then (a, some .rootDeleteRefusedFs)
    else
      match a.get_paths h.fsName p false with
      | .error e => (a, some e)
      | .ok listing => h.deleteEntries a listing

/-! ## AccountHandler: the router

The handler cache `file_system_handlers` only memoizes handler objects
constructed with `prefix_fs=True`; it is semantically transparent, so
`acctFs` builds the handler directly. -/

def acctFs (fsName : Str) : FsHandler := { fsName := fsName, prefixFs := true }

/-- `AccountHandler._split_path`: normalize, then split on the first
slash; no slash means an empty remainder. -/
def splitPath (path : Str) : Except Err (Str × Str) :=
  let p := normalize_path path
  if ¬ p.contains '/' then .ok (p, [])
  else
    match splitSlash p with
    | [] => .ok ([], [])
    | fs_name :: rest =>
      let p2 := joinSlash rest
      if p2.getLast? = some '/' then .error (.illegalPathEnd p2)
      else .ok (fs_name, p2)

/-- `AccountHandler._get_file_info`: an empty namespace is the synthetic
account root; otherwise delegate to the namespace handler. -/
def Account.acct_get_file_info1 (a : Account) (path : Str) : Except Err FileInfo :=
  match splitPath path with
  | .error e => .error e
  | .ok (fsn, rem) =>
    if fsn = [] then .ok { path := [], ftype := .directory }
    else (acctFs fsn).getFileInfoAux a rem

/-- The loop of `AccountHandler.get_file_info_selector` over every
filesystem in the recursive root case; each per-filesystem call receives
the original selector unchanged. -/
def collectFsSelectors (a : Account) (sel : FileSelector) :
    List FileSystem → Except Err (List FileInfo)
  | [] => .ok []
  | fsys :: rest =>
    match (acctFs fsys.name).get_file_info_selector a sel with
    | .error e => .error e
    | .ok infos =>
      match collectFsSelectors a sel rest with
      | .error e => .error e
      | .ok more => .ok (infos ++ more)

/-- `AccountHandler.get_file_info_selector`: an empty namespace lists all
filesystems as directories (plus their recursive contents when asked);
otherwise delegate with the remainder as base dir. -/
def Account.acct_get_file_info_selector (a : Account) (sel : FileSelector) :
    Except Err (List FileInfo) :=
  match splitPath sel.base_dir with
  | .error e => .error e
  | .ok (fsn, rem) =>
    if fsn = [] then
      let roots := a.systems.map (fun f =>
        ({ path := f.name, ftype := .directory } : FileInfo))
      if sel.recursive then
        match collectFsSelectors a sel a.systems with
        | .error e => .error e
        | .ok extra => .ok (roots ++ extra)
      else .ok roots
    else
      (acctFs fsn).get_file_info_selector a
        { base_dir := rem, allow_not_found := sel.allow_not_found,
          recursive := sel.recursive }

/-- `AccountHandler.create_dir`: recursive or bare-namespace calls create
the filesystem idempotently; a non-empty remainder additionally requires
the filesystem to exist already, then delegates. -/
def Account.acct_create_dir (a : Account) (path : Str) (recursive : Bool) :
    Account × Option Err :=
  match splitPath path with
  | .error e => (a, some e)
  | .ok (fsn, rem) =>
    let step1 : Account × Option Err :=
      if recursive ∨ rem = [] then
        match a.create_file_system fsn with
        | .error .resourceExists => (a, none)
        | .error e => (a, some e)
        | .ok a1 => (a1, none)
      else (a, none)
    match step1 with
    | (a1, some e) => (a1, some e)
    | (a1, none) =>
      if rem ≠ [] then
        if ¬ a1.systems.any (fun f => f.name = fsn) then (a1, some (.fileNotFound fsn))
        else (acctFs fsn).create_dir a1 rem recursive
      else (a1, none)

/-- The loop of `AccountHandler.delete_dir_contents` in the root case:
delete every listed filesystem, stopping at the first raised error. -/
def deleteFsList (a : Account) : List Str → Account × Option Err
  | [] => (a, none)
  | n :: rest =>
    match a.delete_file_system n with
    | .error e => (a, some e)
    | .ok a1 => deleteFsList a1 rest

/-- `AccountHandler.delete_dir_contents`: the account root needs the
explicit flag and then removes every filesystem; otherwise delegate with
root acceptance forced true. -/
def Account.acct_delete_dir_contents (a : Account) (path : Str) (accept_root_dir : Bool) :
    Account × Option Err :=
  match splitPath path with
  | .error e => (a, some e)
  | .ok (fsn, rem) =>
    if fsn = [] then
      if accept_root_dir then deleteFsList a (a.list_file_systems.map (fun f => f.name))
      else (a, some .rootDeleteRefusedAccount)
    else (acctFs fsn).delete_dir_contents a rem true

/-- `AccountHandler.delete_file`: empty namespace is FileNotFoundError,
bare namespace is IsADirectoryError, missing namespace is
FileNotFoundError, else delegate. -/
def Account.acct_delete_file (a : Account) (path : Str) : Account × Option Err :=
  match splitPath path with
  | .error e => (a, some e)
  | .ok (fsn, rem) =>
    if fsn = [] then (a, some .fileNotFoundRoot)
    else if rem = [] then (a, some (.isADirectory fsn))
    else if ¬ a.systems.any (fun f => f.name = fsn) then (a, some (.fileNotFound fsn))
    else (acctFs fsn).delete_file a rem

/-- The mutating backend calls a move issues. -/
inductive MoveEv
  | renameFileEv
  | renameDirEv
  deriving DecidableEq, Repr

/-- `AccountHandler.move`, with a trace of its mutating rename calls.
The try block resolves the destination; a FileNotFoundError raised
anywhere inside it is swallowed, any other error propagates, and the
single rename happens only after the whole resolution succeeded. -/
def Account.acct_move (a : Account) (src dest : Str) :
    Account × List MoveEv × Option Err :=
  match splitPath src with
  | .error e => (a, [], some e)
  | .ok (srcFs, srcPath) =>
    match splitPath dest with
    | .error e => (a, [], some e)
    | .ok (dstFs, dstPath) =>
      if srcPath = [] then (a, [], some (.moveFs srcFs))
      else if dstPath = [] then (a, [], some (.moveToFs dstFs))
      else
        match (acctFs srcFs).get_file_info1 a srcPath with
        | .error e => (a, [], some e)
        | .ok fi =>
          let tryResult : Except Err Unit :=
            match a.acct_get_file_info1 dest with
            | .error e => .error e
            | .ok dest_fi =>
              let step1 : Except Err Unit :=
                if dest_fi.ftype = .directory then
                  match a.acct_get_file_info_selector
                      { base_dir := dest, allow_not_found := false,
                        recursive := false } with
                  | .error e => .error e
                  | .ok listing =>
                    if listing ≠ [] then .error (.conflictNonEmptyDir dest) else .ok ()
                else .ok ()
              match step1 with
              | .error e => .error e
              | .ok _ =>
                if fi.ftype ≠ dest_fi.ftype then
                  .error (.conflictTypeMismatch src fi.ftype dest dest_fi.ftype)
                else .ok ()
          let caught : Option Err :=
            match tryResult with
            | .error e => if e.isFileNotFoundClass then none else some e
            | .ok _ => none
          match caught with
          | some e => (a, [], some e)
          | none =>
            if fi.ftype = .file then
              match a.rename_file srcFs srcPath dest with
              | .error e => (a, [.renameFileEv], some e)
              | .ok a1 => (a1, [.renameFileEv], none)
            else
              match a.rename_directory srcFs srcPath dest with
              | .error e => (a, [.renameDirEv], some e)
              | .ok a1 => (a1, [.renameDirEv], none)

/-! ## Concrete states shared by witnesses -/

def entA : PathEntry := { name := ['a'], is_directory := false, content := [1] }
def entD : PathEntry := { name := ['d'], is_directory := true }
def entF : PathEntry := { name := ['f'], is_directory := true }
def entFX : PathEntry := { name := ['f', '/', 'x'], is_directory := false, content := [2] }
def fsN : FileSystem := { name := ['n'], paths := [entA, entD, entF, entFX] }

/-- An account with one filesystem n holding file a, empty directory d,
and directory f containing file f/x. -/
def acct1 : Account := { systems := [fsN] }

/-- A read-mode stream over a committed three-byte file. -/
def rdFile : DLFile := openInput

def rdRemote : RemoteFile := { staged := [1, 2, 3], committed := 3 }

/-- A write-mode stream mid-life: offset already resolved to 0, one
pending byte. -/
def wrFile : DLFile :=
  { mode := .wb, block_size := DEFAULT_BLOCK_SIZE, loc := 1, buffer := [7],
    offset := some 0, closed := false }

/-! ## Path lemmas -/

theorem head?_dropWhile_ne {p : Char → Bool} (l : Str) (c : Char)
    (h : (l.dropWhile p).head? = some c) : p c = false := by
  induction l with
  | nil => simp [List.dropWhile] at h
  | cons a t ih =>
    by_cases hp : p a
    · rw [List.dropWhile_cons_of_pos hp] at h
      exact ih h
    · rw [List.dropWhile_cons_of_neg hp] at h
      simp only [List.head?_cons, Option.some.injEq] at h
      subst h
      exact Bool.not_eq_true _ ▸ (by simpa using hp)

theorem rstripSlash_eq_rdropWhile (l : Str) :
    rstripSlash l = l.rdropWhile (fun a => a = '/') := rfl

theorem head?_rstripSlash (l : Str) (c : Char)
    (h : (rstripSlash l).head? = some c) : l.head? = some c := by
  rcases (List.rdropWhile_prefix (fun a => a = '/') l) with ⟨t, ht⟩
  rw [rstripSlash_eq_rdropWhile] at h
  cases hd : l.rdropWhile (fun a => a = '/') with
  | nil => rw [hd] at h; simp at h
  | cons a u =>
    rw [hd] at h ht
    simp only [List.head?_cons, Option.some.injEq] at h
    subst h
    rw [← ht]
    rfl

theorem getLast?_rstripSlash_ne (l : Str) :
    (rstripSlash l).getLast? ≠ some '/' := by
  intro h
  rw [rstripSlash] at h
  rw [List.getLast?_reverse] at h
  have := head?_dropWhile_ne (p := fun a => a = '/') l.reverse '/' h
  simp at this

/-- C5, part: the normalized path never starts with a separator. -/
theorem normalize_head_ne (p : Str) : (normalize_path p).head? ≠ some '/' := by
  intro h
  have h2 := head?_rstripSlash (lstripSlash p) '/' h
  have := head?_dropWhile_ne (p := fun a => a = '/') p '/' h2
  simp at this

/-- C5, part: the normalized path never ends with a separator. -/
theorem normalize_getLast_ne (p : Str) : (normalize_path p).getLast? ≠ some '/' :=
  getLast?_rstripSlash_ne (lstripSlash p)

/-- C5: normalize strips all leading and trailing separators
(`normalize("/a/b/") = "a/b"`); split takes the first segment as the
namespace with the rest joined as the remainder
(`split("a/b/c") = ("a", "b/c")`), with an empty remainder when the
normalized path has no separator (`split("a") = ("a", "")`). -/
theorem C5_path_algebra :
    (∀ p : Str, (normalize_path p).head? ≠ some '/' ∧
      (normalize_path p).getLast? ≠ some '/' ∧
      (¬ (normalize_path p).contains '/' →
        splitPath p = .ok (normalize_path p, []))) ∧
    normalize_path "/a/b/".toList = "a/b".toList ∧
    splitPath "a/b/c".toList = .ok ("a".toList, "b/c".toList) ∧
    splitPath "a".toList = .ok ("a".toList, []) := by
  refine ⟨fun p => ⟨normalize_head_ne p, normalize_getLast_ne p, fun h => ?_⟩,
    by decide, rfl, rfl⟩
  simp only [splitPath]
  rw [if_pos h]

/-- Witness for C5 at the concrete input "/x//". -/
theorem C5_witness : (normalize_path "/x//".toList).head? ≠ some '/' :=
  (C5_path_algebra.1 "/x//".toList).1

/-- C6 counterexample: the claim says `seek(loc, 0)` issues no remote
file-size metadata round trip, but on a concrete read stream the call
trace of `seek(1, 0)` contains the `get_file_properties` call, because the
source evaluates all three whence candidates eagerly. -/
theorem C6_counterexample :
    (seekOp rdFile rdRemote 1 0).2.1 = [FileCall.getProperties] ∧
    (seekOp rdFile rdRemote 1 0).2.1 ≠ [] := by
  constructor <;> decide

/-- C6 amended: seek(loc, 0) targets loc, seek(loc, 1) targets cursor+loc,
seek(loc, 2) targets size+loc, and every in-range seek issues exactly one
file-size metadata round trip (the source builds all three candidates
before indexing); a resulting offset below 0 raises the invalid-seek error
and leaves the stream state unchanged. -/
theorem C6_seek_semantics (s : DLFile) (r : RemoteFile) (loc w : Int)
    (hm : s.mode = .rb) (h0 : 0 ≤ w) (h2 : w ≤ 2) :
    (seekOp s r loc w).2.1 = [FileCall.getProperties] ∧
    (0 ≤ seekTarget s r loc w →
      (seekOp s r loc w).1 = { s with loc := seekTarget s r loc w } ∧
      (seekOp s r loc w).2.2 = .ok (seekTarget s r loc w)) ∧
    (seekTarget s r loc w < 0 →
      (seekOp s r loc w).1 = s ∧
      (seekOp s r loc w).2.2 = .error .valueSeekNeg) := by
  have hmode : ¬ s.mode ≠ Mode.rb := by simp [hm]
  simp only [seekOp, if_neg hmode, if_neg (show ¬ ¬ (0 ≤ w ∧ w ≤ 2) by simp [h0, h2])]
  refine ⟨by split <;> rfl, fun hge => ?_, fun hlt => ?_⟩
  · rw [if_neg (by omega)]
    exact ⟨rfl, rfl⟩
  · rw [if_pos hlt]
    exact ⟨rfl, rfl⟩

/-- Witness for C6 at whence 1 on the concrete read stream. -/
theorem C6_witness :
    (seekOp rdFile rdRemote 2 1).2.1 = [FileCall.getProperties] :=
  (C6_seek_semantics rdFile rdRemote 2 1 rfl (by decide) (by decide)).1

/-- C10: a read never moves the cursor: the state after a read is the
state before it (so tell is unchanged), and an immediately repeated read
with the same length returns the same bytes. -/
theorem C10_read_preserves_cursor (s : DLFile) (r : RemoteFile) (len : Int)
    (hm : s.mode = .rb) (hc : s.closed = false)
    (hok : (readOp s r len).2.1 = none) :
    (readOp s r len).1.loc = s.loc ∧
    (readOp (readOp s r len).1 r len).2.2 = (readOp s r len).2.2 := by
  have hstate : (readOp s r len).1 = s := by
    simp only [readOp]
    repeat' split
    all_goals rfl
  rw [hstate]
  exact ⟨rfl, rfl⟩

/-- Witness for C10 on the concrete read stream. -/
theorem C10_witness : (readOp rdFile rdRemote 2).1.loc = rdFile.loc :=
  (C10_read_preserves_cursor rdFile rdRemote 2 rfl rfl (by decide)).1

/-- C4 counterexample: with the commit (`flush_data`) call raising, flush
on a stream with resolved offset 0 and one pending byte leaves the buffer
intact but advances the resolved offset to 1, so the offset is not
unchanged as the claim states. -/
theorem C4_counterexample :
    ((flushOp { appendRaises := false, flushRaises := true } wrFile
        { staged := [], committed := 0 }).2.2).isSome = true ∧
    (flushOp { appendRaises := false, flushRaises := true } wrFile
        { staged := [], committed := 0 }).1.buffer = wrFile.buffer ∧
    (flushOp { appendRaises := false, flushRaises := true } wrFile
        { staged := [], committed := 0 }).1.offset ≠ wrFile.offset := by
  refine ⟨by decide, by decide, by decide⟩

/-- C4 amended: when a flush on an open write- or append-mode stream fails
in a backend call, the pending buffer is intact and no bytes became
visible (the committed length is unchanged); a failed append leaves the
resolved offset and the whole remote state unchanged, so a retry resends
the identical bytes at the identical offset, while a failed commit leaves
the offset already advanced by the buffer length, so a retry resends the
identical bytes at the advanced offset. -/
theorem C4_flush_failure (env : FlushEnv) (s : DLFile) (r : RemoteFile)
    (hm : s.mode ≠ .rb) (hc : s.closed = false)
    (he : (flushOp env s r).2.2.isSome = true) :
    (flushOp env s r).1.buffer = s.buffer ∧
    (flushOp env s r).2.1.committed = r.committed ∧
    (env.appendRaises = true →
      (flushOp env s r).1.offset = some (resolveOffset s r) ∧
      (flushOp env s r).2.1 = r) ∧
    (env.appendRaises = false →
      (flushOp env s r).1.offset = some (resolveOffset s r + s.buffer.length)) := by
  simp only [flushOp]
  rw [if_neg (by simp [hc]), if_neg (by simpa using hm)]
  by_cases ha : env.appendRaises = true
  · rw [if_pos ha]
    exact ⟨rfl, rfl, fun _ => ⟨rfl, rfl⟩,
      fun hcontra => absurd (hcontra ▸ ha) Bool.false_ne_true⟩
  · rw [if_neg ha]
    by_cases hf : env.flushRaises = true
    · rw [if_pos hf]
      exact ⟨rfl, rfl, fun hcontra => absurd hcontra ha, fun _ => rfl⟩
    · exfalso
      have hnone : (flushOp env s r).2.2 = none := by
        simp only [flushOp]
        rw [if_neg (by simp [hc]), if_neg (by simpa using hm), if_neg ha, if_neg hf]
      rw [hnone] at he
      simp at he

/-- Witness for C4 with a failing append on the concrete write stream. -/
theorem C4_witness :
    (flushOp { appendRaises := true, flushRaises := false } wrFile
        { staged := [], committed := 0 }).1.buffer = wrFile.buffer :=
  (C4_flush_failure { appendRaises := true, flushRaises := false } wrFile
    { staged := [], committed := 0 } (by decide) rfl (by decide)).1

/-- How a failure-free flush acts on an open write-mode stream: append the
buffer at the resolved offset, commit, clear the buffer. -/
theorem flush_wb (s : DLFile) (r : RemoteFile)
    (hm : s.mode = .wb) (hc : s.closed = false) :
    flushOp noFailures s r =
      ({ s with offset := some (resolveOffset s r + s.buffer.length), buffer := [] },
       { staged := r.staged.take (resolveOffset s r) ++ s.buffer,
         committed := resolveOffset s r + s.buffer.length },
       none) := by
  simp only [flushOp, noFailures]
  rw [if_neg (by simp [hc]), if_neg (by simp [hm]), if_neg (by decide), if_neg (by decide)]

/-- C1: writing N bytes to a fresh output stream and closing it, then
reading with length -1 from cursor 0 on an input stream over the same
remote file, returns exactly the N bytes and raises no error — for every
byte string, in particular below, at, and above the 5 MiB threshold. -/
theorem C1_round_trip (data : List Nat) :
    writeReadRoundTrip data = (none, none, data) := by
  simp only [writeReadRoundTrip, openOutput, writeOp, openInput]
  rw [if_neg (by decide), if_neg (by decide)]
  simp only [List.nil_append]
  by_cases hbs : DEFAULT_BLOCK_SIZE ≤ data.length
  · have hne : data ≠ [] := by
      intro hnil
      rw [hnil] at hbs
      simp [DEFAULT_BLOCK_SIZE] at hbs
    rw [if_pos hbs, flush_wb _ _ rfl rfl]
    simp only [resolveOffset, closeOp]
    rw [if_neg (by decide), flush_wb _ _ rfl rfl]
    simp only [readOp, resolveOffset]
    rw [if_neg (by decide), if_neg (by decide)]
    simp only [if_neg (by decide : ¬ (Mode.wb = Mode.ab)), List.length_nil, List.take_nil,
      List.nil_append, Nat.add_zero, Nat.zero_add, List.append_nil, List.take_length]
    rw [if_neg (by simp [hne]), if_pos (by decide : (-1 : Int) < 0)]
    simp [List.take_length]
  · rw [if_neg hbs]
    simp only [closeOp]
    rw [if_neg (by decide), flush_wb _ _ rfl rfl]
    simp only [readOp, resolveOffset]
    rw [if_neg (by decide), if_neg (by decide)]
    by_cases hnil : data = []
    · subst hnil
      rfl
    · simp only [if_neg (by decide : ¬ (Mode.wb = Mode.ab)), List.length_nil, List.take_nil,
        List.nil_append, Nat.add_zero, Nat.zero_add, List.append_nil, List.take_length]
      rw [if_neg (by simp [hnil]), if_pos (by decide : (-1 : Int) < 0)]
      simp [List.take_length]

theorem dropWhile_eq_self_of_head {p : Char → Bool} (l : Str)
    (hh : ∀ c, l.head? = some c → p c = false) : l.dropWhile p = l := by
  cases l with
  | nil => rfl
  | cons a t =>
    rw [List.dropWhile_cons_of_neg]
    have := hh a rfl
    simp [this]

theorem lstrip_normalize (p : Str) :
    lstripSlash (normalize_path p) = normalize_path p := by
  apply dropWhile_eq_self_of_head
  intro c hc
  have := normalize_head_ne p
  by_contra hcontra
  rw [Bool.not_eq_false] at hcontra
  simp only [decide_eq_true_eq] at hcontra
  exact this (hcontra ▸ hc)

theorem rstrip_normalize (p : Str) :
    rstripSlash (normalize_path p) = normalize_path p := by
  unfold rstripSlash
  rw [dropWhile_eq_self_of_head, List.reverse_reverse]
  intro c hc
  rw [List.head?_reverse] at hc
  have := normalize_getLast_ne p
  by_contra hcontra
  rw [Bool.not_eq_false] at hcontra
  simp only [decide_eq_true_eq] at hcontra
  exact this (hcontra ▸ hc)

/-- Normalization is idempotent. -/
theorem normalize_idem (p : Str) :
    normalize_path (normalize_path p) = normalize_path p := by
  unfold normalize_path
  rw [show lstripSlash (rstripSlash (lstripSlash p)) =
      lstripSlash (normalize_path p) from rfl]
  rw [lstrip_normalize]
  exact rstrip_normalize p

/-! ## Helper lemmas on the backend model -/

theorem findFs_any (a : Account) (nm : Str) (fs : FileSystem)
    (h : a.findFs nm = some fs) : a.systems.any (fun f => f.name = nm) = true := by
  have hmem := List.mem_of_find?_eq_some h
  have hp := List.find?_some h
  exact List.any_eq_true.mpr ⟨fs, hmem, hp⟩

theorem childrenOf_mem (entries : List PathEntry) (path : Str) (recursive : Bool)
    (e : PathEntry) (he : e ∈ childrenOf entries path recursive) : e ∈ entries := by
  unfold childrenOf at he
  split at he
  · split at he
    · exact he
    · exact List.mem_of_mem_filter he
  · exact List.mem_of_mem_filter he

theorem get_paths_ok (a : Account) (fsName path : Str) (recursive : Bool)
    (listing : List PathEntry)
    (h : a.get_paths fsName path recursive = .ok listing) :
    ∃ fs, a.findFs fsName = some fs ∧ ∀ e ∈ listing, e ∈ fs.paths := by
  unfold Account.get_paths at h
  cases hf : a.findFs fsName with
  | none => rw [hf] at h; cases h
  | some fs =>
    simp only [hf] at h
    refine ⟨fs, rfl, fun e he => ?_⟩
    by_cases hp : path = []
    · rw [if_pos hp] at h
      cases h
      exact childrenOf_mem _ _ _ e he
    · rw [if_neg hp] at h
      by_cases hq : fs.paths.any (fun x => x.name = path ∧ x.is_directory) = true
      · rw [if_pos hq] at h
        cases h
        exact childrenOf_mem _ _ _ e he
      · rw [if_neg hq] at h
        cases h

/-- C7: the router deleteFile fails NotFound on an empty namespace,
IsADirectory on a bare namespace name, NotFound on a missing namespace;
the namespace-level deleteFile fails IsADirectory whenever the target
resolves to a Directory, and with a File target it deletes and raises
nothing. -/
theorem C7_delete_file_taxonomy (a : Account) (path rem fsn : Str)
    (h : FsHandler) (fi : FileInfo) :
    (splitPath path = .ok ([], rem) →
      a.acct_delete_file path = (a, some .fileNotFoundRoot)) ∧
    (splitPath path = .ok (fsn, []) → fsn ≠ [] →
      a.acct_delete_file path = (a, some (.isADirectory fsn))) ∧
    (splitPath path = .ok (fsn, rem) → fsn ≠ [] → rem ≠ [] →
      a.systems.any (fun f => f.name = fsn) = false →
      a.acct_delete_file path = (a, some (.fileNotFound fsn))) ∧
    (h.get_file_info1 a (normalize_path rem) = .ok fi → fi.ftype = .directory →
      h.delete_file a rem = (a, some (.isADirectory (h.pfx (normalize_path rem))))) ∧
    (h.get_file_info1 a (normalize_path rem) = .ok fi → fi.ftype = .file →
      (h.delete_file a rem).2 = none) := by
  refine ⟨?_, ?_, ?_, ?_, ?_⟩
  · intro hsplit
    simp only [Account.acct_delete_file]
    rw [hsplit]
    simp
  · intro hsplit hfsn
    simp only [Account.acct_delete_file]
    rw [hsplit]
    simp [hfsn]
  · intro hsplit hfsn hrem hany
    simp only [Account.acct_delete_file]
    rw [hsplit]
    simp [hfsn, hrem, hany]
  · intro hres hdir
    simp only [FsHandler.delete_file]
    rw [hres]
    simp [hdir]
  · intro hres hfile
    have hdel : ∃ a1, a.delete_file_be h.fsName (normalize_path rem) = .ok a1 := by
      simp only [FsHandler.get_file_info1, FsHandler.getFileInfoAux, normalize_idem] at hres
      by_cases hroot : lstripSlash (normalize_path rem) = []
      · exfalso
        rw [if_pos hroot] at hres
        simp only [Except.ok.injEq] at hres
        rw [← hres] at hfile
        cases hfile
      · rw [if_neg hroot] at hres
        cases hgp : a.get_paths h.fsName (dirname (normalize_path rem)) false with
        | error e => rw [hgp] at hres; cases hres
        | ok listing =>
          simp only [hgp] at hres
          cases hfind : listing.find? (fun e => e.name = normalize_path rem) with
          | none => simp only [hfind] at hres; cases hres
          | some e =>
            simp only [hfind, Except.ok.injEq] at hres
            have hname : e.name = normalize_path rem := by
              have := List.find?_some hfind
              simpa using this
            have hfile2 : e.is_directory = false := by
              rw [← hres] at hfile
              simp only [FsHandler.create_file_info] at hfile
              by_contra hcontra
              rw [Bool.not_eq_false] at hcontra
              rw [if_pos hcontra] at hfile
              cases hfile
            obtain ⟨fs, hfs, hsub⟩ := get_paths_ok a _ _ _ _ hgp
            have hmem : e ∈ fs.paths := hsub e (List.mem_of_find?_eq_some hfind)
            have hany : fs.paths.any
                (fun x => x.name = normalize_path rem ∧ ¬ x.is_directory) = true :=
              List.any_eq_true.mpr ⟨e, hmem, by simp [hname, hfile2]⟩
            simp only [Account.delete_file_be, hfs]
            rw [if_pos hany]
            exact ⟨_, rfl⟩
    obtain ⟨a1, ha1⟩ := hdel
    simp only [FsHandler.delete_file]
    rw [hres]
    simp [hfile, ha1]

/-- Witness for C7: deleting through a missing namespace on the concrete
account fails NotFound. -/
theorem C7_witness :
    acct1.acct_delete_file ("nope/file").toList =
      (acct1, some (.fileNotFound ("nope").toList)) :=
  (C7_delete_file_taxonomy acct1 ("nope/file").toList ("file").toList
      ("nope").toList (acctFs ("nope").toList) (FileInfo.mk [] .directory none)).2.2.1
    rfl (by decide) (by decide) (by decide)

theorem deleteFsList_all (l : List FileSystem) :
    ∀ a : Account, a.systems = l → (l.map (fun f => f.name)).Nodup →
      deleteFsList a (l.map (fun f => f.name)) = ({ systems := [] }, none) := by
  induction l with
  | nil =>
    intro a ha _
    obtain ⟨sys⟩ := a
    simp only at ha
    subst ha
    rfl
  | cons f t ih =>
    intro a ha hnd
    rw [List.map_cons] at hnd
    have hnd2 := List.nodup_cons.mp hnd
    have hany : a.systems.any (fun g => g.name = f.name) = true := by
      rw [ha]
      simp
    simp only [List.map_cons, deleteFsList, Account.delete_file_system, if_pos hany]
    apply ih
    · rw [ha]
      simp only [List.filter_cons]
      rw [if_neg (by simp)]
      apply List.filter_eq_self.mpr
      intro x hx
      have hne : x.name ≠ f.name := by
        intro hcontra
        exact hnd2.1 (hcontra ▸ List.mem_map_of_mem (fun g => g.name) hx)
      simpa using hne
    · exact hnd2.2

/-- C8: deleteDirContents of the account root without the acceptance flag
fails and removes nothing; with the flag it deletes every namespace; a
path with a non-empty namespace delegates to that namespace handler with
root acceptance forced true. -/
theorem C8_root_protection (a : Account) (path fsn rem : Str) (flag : Bool)
    (hnodup : (a.systems.map (fun f => f.name)).Nodup)
    (hsplit : splitPath path = .ok (fsn, rem)) (hfs : fsn ≠ []) :
    a.acct_delete_dir_contents [] false = (a, some .rootDeleteRefusedAccount) ∧
    a.acct_delete_dir_contents [] true = ({ systems := [] }, none) ∧
    a.acct_delete_dir_contents path flag = (acctFs fsn).delete_dir_contents a rem true := by
  refine ⟨rfl, ?_, ?_⟩
  · have h2 : a.acct_delete_dir_contents [] true =
        deleteFsList a (a.systems.map (fun f => f.name)) := rfl
    rw [h2, deleteFsList_all a.systems a rfl hnodup]
  · simp only [Account.acct_delete_dir_contents]
    rw [hsplit]
    simp [hfs]

/-- Witness for C8 on the concrete account: root deletion without the
flag is refused. -/
theorem C8_witness :
    acct1.acct_delete_dir_contents [] false =
      (acct1, some .rootDeleteRefusedAccount) :=
  (C8_root_protection acct1 ("n/f").toList ("n").toList ("f").toList false
    (by decide) rfl (by decide)).1

/-- An account holding one filesystem named ns with no paths in it. -/
def acct3 : Account := { systems := [{ name := ['n', 's'], paths := [] }] }

/-- C3 counterexample: with namespace ns existing and ns/missing absent,
non-recursive createDir of ns/missing/child fails with NotADirectoryError
(from the parent verification), not with the FileNotFoundError the claim
states. -/
theorem C3_counterexample :
    (acct3.acct_create_dir ("ns/missing/child").toList false).2 =
      some (.notADirectory ("ns/missing").toList) ∧
    Option.map Err.isFileNotFoundClass
      (acct3.acct_create_dir ("ns/missing/child").toList false).2 = some false := by
  exact ⟨rfl, rfl⟩

/-- C3 amended: for every account in which namespace ns exists and holds
no entry named missing, non-recursive createDir of ns/missing/child fails
with NotADirectoryError on the prefixed parent path ns/missing, leaving
the account unchanged. -/
theorem C3_create_dir_missing_parent (a : Account) (fs : FileSystem)
    (hfs : a.findFs ("ns").toList = some fs)
    (hmiss : ∀ e ∈ fs.paths, e.name ≠ ("missing").toList) :
    a.acct_create_dir ("ns/missing/child").toList false =
      (a, some (.notADirectory ("ns/missing").toList)) := by
  have hsp : splitPath ("ns/missing/child").toList =
      .ok (("ns").toList, ("missing/child").toList) := rfl
  simp only [Account.acct_create_dir, hsp]
  rw [if_neg (by decide)]
  simp only []
  have hany := findFs_any a ("ns").toList fs hfs
  rw [if_pos (by decide : ("missing/child").toList ≠ []),
    if_neg (show ¬ ¬ (a.systems.any (fun f => f.name = ("ns").toList) = true) from
      fun hcon => hcon hany)]
  have hfs2 : a.findFs ['n', 's'] = some fs := hfs
  have hgp : a.get_paths ("ns").toList [] false =
      .ok (childrenOf fs.paths [] false) := by
    simp [Account.get_paths, hfs2]
  have hfind : (childrenOf fs.paths [] false).find?
      (fun e => e.name = ("missing").toList) = none := by
    apply List.find?_eq_none.mpr
    intro x hx
    have := hmiss x (childrenOf_mem _ _ _ x hx)
    simpa using this
  have hverify : (acctFs ("ns").toList).verify_is_dir a
      (dirname (normalize_path ("missing/child").toList)) =
      some (.notADirectory ("ns/missing").toList) := by
    have hdir : dirname (normalize_path ("missing/child").toList) =
        ("missing").toList := by decide
    rw [hdir]
    simp only [FsHandler.verify_is_dir]
    rw [if_neg (by decide)]
    have hparent : dirname ("missing").toList = [] := by decide
    rw [hparent, show (acctFs ("ns").toList).fsName = ("ns").toList from rfl, hgp]
    simp only [hfind]
    rfl
  simp only [FsHandler.create_dir]
  rw [if_neg (by decide : ¬ (false = true))]
  rw [hverify]

/-- Witness for C3 on the concrete one-namespace account. -/
theorem C3_witness :
    acct3.acct_create_dir ("ns/missing/child").toList false =
      (acct3, some (.notADirectory ("ns/missing").toList)) :=
  C3_create_dir_missing_parent acct3 { name := ['n', 's'], paths := [] }
    rfl (by decide)

/-- C2 counterexample: on the concrete account, moving file n/a onto the
existing empty directory n/d does not succeed: it raises the type-mismatch
ValueError, because the source compares source and destination types after
the emptiness check and an empty Directory destination still differs in
type from a File source. -/
theorem C2_counterexample :
    (acct1.acct_move ("n/a").toList ("n/d").toList).2.2 =
      some (.conflictTypeMismatch ("n/a").toList .file ("n/d").toList .directory) ∧
    (acct1.acct_move ("n/a").toList ("n/d").toList).2.2 ≠ none := by
  exact ⟨rfl, by decide⟩

/-- C2 amended: for every account, file source and existing Directory
destination (both with non-empty remainders), move fails with a Conflict
ValueError and leaves the stored state unchanged: the non-empty-directory
conflict when the destination directory has contents, and the type-mismatch
conflict when it is empty. -/
theorem C2_move_onto_directory (a : Account) (src dest srcFs srcPath dstFs dstPath : Str)
    (fi dfi : FileInfo) (listing : List FileInfo)
    (hs : splitPath src = .ok (srcFs, srcPath)) (hsp : srcPath ≠ [])
    (hd : splitPath dest = .ok (dstFs, dstPath)) (hdp : dstPath ≠ [])
    (hfi : (acctFs srcFs).get_file_info1 a srcPath = .ok fi)
    (hfile : fi.ftype = .file)
    (hdfi : a.acct_get_file_info1 dest = .ok dfi)
    (hdir : dfi.ftype = .directory)
    (hsel : a.acct_get_file_info_selector
      { base_dir := dest, allow_not_found := false, recursive := false } = .ok listing) :
    (listing = [] →
      a.acct_move src dest =
        (a, [], some (.conflictTypeMismatch src .file dest .directory))) ∧
    (listing ≠ [] →
      a.acct_move src dest = (a, [], some (.conflictNonEmptyDir dest))) := by
  simp only [Account.acct_move, hs, hd]
  rw [if_neg hsp, if_neg hdp]
  simp only [hfi, hdfi, hsel]
  rw [if_pos hdir]
  constructor
  · intro hnil
    rw [if_neg (by simp [hnil])]
    rw [if_pos (by simp [hfile, hdir])]
    simp [hfile, hdir, Err.isFileNotFoundClass]
  · intro hne
    rw [if_pos hne]
    simp [Err.isFileNotFoundClass]

/-- Witness for C2: the amended behavior on the concrete account, where
directory n/d is empty. -/
theorem C2_witness :
    acct1.acct_move ("n/a").toList ("n/d").toList =
      (acct1, [],
        some (.conflictTypeMismatch ("n/a").toList .file ("n/d").toList .directory)) :=
  (C2_move_onto_directory acct1 ("n/a").toList ("n/d").toList
      ("n").toList ("a").toList ("n").toList ("d").toList
      { path := ("n/a").toList, ftype := .file, size := some 1 }
      { path := ("n/d").toList, ftype := .directory, size := some 0 }
      [] rfl (by decide) rfl (by decide) rfl rfl rfl rfl rfl).1 rfl

theorem acct_move_cases (a : Account) (src dest : Str) :
    (a.acct_move src dest).1 = a ∨
      ((a.acct_move src dest).2.1 ≠ [] ∧ (a.acct_move src dest).2.2 = none) := by
  simp only [Account.acct_move]
  repeat' split
  all_goals first
    | exact Or.inl rfl
    | exact Or.inr ⟨by simp, rfl⟩

theorem acct_move_trace_short (a : Account) (src dest : Str) :
    (a.acct_move src dest).2.1.length ≤ 1 := by
  simp only [Account.acct_move]
  repeat' split
  all_goals simp

/-- C9: the router move mutates through at most one rename call, and if it
fails without having issued a rename (path rejection, conflict, or a
resolution error), the stored account state is exactly what it was before
the call. -/
theorem C9_move_resolution_atomic (a : Account) (src dest : Str) (e : Err)
    (herr : (a.acct_move src dest).2.2 = some e)
    (hnoren : (a.acct_move src dest).2.1 = []) :
    (a.acct_move src dest).1 = a ∧ (a.acct_move src dest).2.1.length ≤ 1 := by
  refine ⟨?_, acct_move_trace_short a src dest⟩
  rcases acct_move_cases a src dest with hcase | hcase
  · exact hcase
  · exact absurd hnoren hcase.1

/-- Witness for C9: a move whose source lookup fails leaves the concrete
account unchanged. -/
theorem C9_witness :
    (acct1.acct_move ("n/zzz").toList ("n/w").toList).1 = acct1 :=
  (C9_move_resolution_atomic acct1 ("n/zzz").toList ("n/w").toList
    (.fileNotFound ("n/zzz").toList) rfl rfl).1

end Adlgen2
